import Mathlib

/-!
Shallow embedding of the Premiere Pro Marker Importer (`hockey_markers.jsx`,
second / final script version, the one the spec describes).

The script is ExtendScript (ECMAScript 3 dialect).  Machine floats are
modelled by `ℚ` (every value the pipeline manipulates in the claims is a
small decimal, exactly representable).  JavaScript builtins used by the
source (`parseFloat`, `parseInt(·, 10)`, `String.prototype.split`,
`replace` with the two concrete regexes the source uses) are modelled
explicitly below; `NaN` results are modelled by `Option.none`.
`parseFloat("Infinity")` (which JS accepts) is out of the rational model
and is treated as no-parse; no claim touches it.
-/

/-- Whitespace class of the source's `trim` regex `\s` (ASCII part):
space, tab, line feed, vertical tab, form feed, carriage return. -/
def isJsSpace (c : Char) : Bool :=
  c = ' ' || c = '\t' || c = '\n' || c = '\x0b' || c = '\x0c' || c = '\r'

/-- Embedding of the source's `trim` (line 256):
`str.replace(/^\s+|\s+$/g, '')` — drop leading and trailing whitespace. -/
def trim (s : String) : String :=
  ⟨((s.data.dropWhile isJsSpace).reverse.dropWhile isJsSpace).reverse⟩

/-- Decimal digit test. -/
def isDigit (c : Char) : Bool := '0' ≤ c && c ≤ '9'

/-- Value of a list of decimal digit characters, most significant first. -/
def digitsToNat (ds : List Char) : Nat :=
  ds.foldl (fun a c => 10 * a + (c.toNat - 48)) 0

/-- Mantissa part of the ECMAScript `StrDecimalLiteral` grammar used by
`parseFloat`: longest prefix of the form `Digits ['.' Digits]` or
`'.' Digits` (a trailing bare `.` after digits is consumed, as in JS
`parseFloat("5.e2") = 500`).  Returns the rational value and the
unconsumed suffix, or `none` when no digit is found. -/
def readMantissa (cs : List Char) : Option (ℚ × List Char) :=
  let ints := cs.takeWhile isDigit
  let rest := cs.dropWhile isDigit
  match rest with
  | '.' :: r2 =>
      let fr := r2.takeWhile isDigit
      let r3 := r2.dropWhile isDigit
      if ints.isEmpty && fr.isEmpty then none
      else some ((digitsToNat ints : ℚ) + (digitsToNat fr : ℚ) / (10 : ℚ) ^ fr.length, r3)
  | _ =>
      if ints.isEmpty then none
      else some ((digitsToNat ints : ℚ), rest)

/-- Exponent part of the `parseFloat` grammar: `e`/`E`, optional sign,
digits.  An incomplete exponent (`"1e"`, `"1e+"`) is not consumed, as in
JS, so its value is 0. -/
def readExponent (cs : List Char) : Int :=
  match cs with
  | 'e' :: rest =>
      (match rest with
       | '+' :: r2 => if (r2.takeWhile isDigit).isEmpty then 0
                      else (digitsToNat (r2.takeWhile isDigit) : Int)
       | '-' :: r2 => if (r2.takeWhile isDigit).isEmpty then 0
                      else -(digitsToNat (r2.takeWhile isDigit) : Int)
       | r2 => if (r2.takeWhile isDigit).isEmpty then 0
               else (digitsToNat (r2.takeWhile isDigit) : Int))
  | 'E' :: rest =>
      (match rest with
       | '+' :: r2 => if (r2.takeWhile isDigit).isEmpty then 0
                      else (digitsToNat (r2.takeWhile isDigit) : Int)
       | '-' :: r2 => if (r2.takeWhile isDigit).isEmpty then 0
                      else -(digitsToNat (r2.takeWhile isDigit) : Int)
       | r2 => if (r2.takeWhile isDigit).isEmpty then 0
               else (digitsToNat (r2.takeWhile isDigit) : Int))
  | _ => 0

/-- Multiply by a signed power of ten (kept in `ℚ` without `zpow` so the
kernel evaluates it cheaply). -/
def applyExp (v : ℚ) (e : Int) : ℚ :=
  if 0 ≤ e then v * (10 : ℚ) ^ e.toNat else v / (10 : ℚ) ^ (-e).toNat

/-- Model of the JavaScript builtin `parseFloat`: skip leading whitespace,
optional sign, then the longest valid decimal-literal prefix; `none`
models `NaN` (no digits found).  Crucially, trailing garbage after a
valid prefix is ignored — `parseFloat("1:30") = 1`. -/
def jsParseFloat (s : String) : Option ℚ :=
  match s.data.dropWhile isJsSpace with
  | '-' :: rest =>
      (match readMantissa rest with
       | some (v, r) => some (-(applyExp v (readExponent r)))
       | none => none)
  | '+' :: rest =>
      (match readMantissa rest with
       | some (v, r) => some (applyExp v (readExponent r))
       | none => none)
  | cs =>
      (match readMantissa cs with
       | some (v, r) => some (applyExp v (readExponent r))
       | none => none)

/-- Model of the JavaScript builtin `parseInt(s, 10)`: skip leading
whitespace, optional sign, then leading decimal digits; `none` models
`NaN` (no digit found).  Trailing garbage is ignored. -/
def jsParseInt (s : String) : Option Int :=
  match s.data.dropWhile isJsSpace with
  | '-' :: rest =>
      if (rest.takeWhile isDigit).isEmpty then none
      else some (-(digitsToNat (rest.takeWhile isDigit) : Int))
  | '+' :: rest =>
      if (rest.takeWhile isDigit).isEmpty then none
      else some (digitsToNat (rest.takeWhile isDigit) : Int)
  | cs =>
      if (cs.takeWhile isDigit).isEmpty then none
      else some (digitsToNat (cs.takeWhile isDigit) : Int)

/-- Error taxonomy of the pipeline (the source throws `Error` objects with
distinct messages; each distinct message is one constructor). -/
inductive ImportError where
  /-- "File does not exist: path" (readCSV). -/
  | fileNotFound
  /-- "CSV header must contain at least two columns..." (readCSV). -/
  | headerInvalid
  /-- "CSV file is empty or contains no valid data." (main). -/
  | emptyData
  /-- "No valid markers found in the CSV file" (parseCSVData). -/
  | noValidMarkers
  /-- "Invalid time format: text. Expected seconds or HH:MM:SS format." -/
  | invalidTimeFormat (text : String)
  deriving DecidableEq

/-- Embedding of `parseTimeString` (source lines 343-366): trim, try
`parseFloat` (returning immediately when it is not `NaN`), else split on
`:`, require exactly 3 parts, `parseInt` hours and minutes and
`parseFloat` seconds, else throw. -/
def parseTimeString (timeStr : String) : Except ImportError ℚ :=
  let t := trim timeStr
  match jsParseFloat t with
  | some seconds => Except.ok seconds
  | none =>
      match t.splitOn ":" with
      | [p0, p1, p2] =>
          (match jsParseInt p0, jsParseInt p1, jsParseFloat p2 with
           | some hours, some minutes, some secs =>
               Except.ok ((hours : ℚ) * 3600 + (minutes : ℚ) * 60 + secs)
           | _, _, _ => Except.error (ImportError.invalidTimeFormat t))
      | _ => Except.error (ImportError.invalidTimeFormat t)

/-- Quote characters handled by the field-cleaning regex. -/
def isQuote (c : Char) : Bool := c = '"' || c = '\''

/-- Drop one trailing single or double quote, if the last character is one. -/
def dropTrailingQuote (cs : List Char) : List Char :=
  match cs.getLast? with
  | some c => if isQuote c then cs.dropLast else cs
  | none => cs

/-- Embedding of `col.replace(/^["']\x7c["']$/g, '')` (source line 283):
remove one leading quote character if present and one trailing quote
character if present.  The two removals are independent (the regex does
not require them to match), and a one-character quote string is consumed
by the leading alternative only. -/
def stripQuotes (s : String) : String :=
  match s.data with
  | [] => ""
  | c :: rest =>
      if isQuote c then ⟨dropTrailingQuote rest⟩
      else ⟨dropTrailingQuote (c :: rest)⟩

/-- Embedding of the per-field cleanup in `readCSV` (source lines 282-284):
`trim(col.replace(/^["']\x7c["']$/g, ''))` — quote-strip first, then trim. -/
def cleanField (s : String) : String := trim (stripQuotes s)

/-- Embedding of the `readCSV` line loop (source lines 260-308), over the
decoded line sequence.  The file-existence check and the `finally` close
are resource concerns outside the line-level model; the loop itself is
embedded faithfully: skip empty/whitespace-only lines, split on `,`,
clean each field, treat the first surviving line as the header (fatal if
it has fewer than 2 columns, discarded otherwise), drop later lines with
fewer than 2 columns, keep the rest in order. -/
def readCSVLoop : List String → Bool → Except ImportError (List (List String))
  | [], _ => Except.ok []
  | line :: rest, isFirstLine =>
      if trim line = "" then readCSVLoop rest isFirstLine
      else
        let columns := (line.splitOn ",").map cleanField
        if isFirstLine then
          if columns.length < 2 then Except.error ImportError.headerInvalid
          else readCSVLoop rest false
        else
          if columns.length < 2 then readCSVLoop rest false
          else
            match readCSVLoop rest false with
            | Except.ok d => Except.ok (columns :: d)
            | Except.error e => Except.error e

/-- Embedding of `readCSV` on an already-decoded list of lines. -/
def readCSV (lines : List String) : Except ImportError (List (List String)) :=
  readCSVLoop lines true

/-- MarkerRecord of the spec: the `{ timestamp, comment }` object built by
`parseCSVData`. -/
structure MarkerRecord where
  timestamp : String
  comment : String
  deriving DecidableEq

/-- Row-filtering loop of `parseCSVData` (source lines 312-333): keep rows
whose first two fields are both non-empty, in order. -/
def parseCSVRows : List (List String) → List MarkerRecord
  | [] => []
  | row :: rest =>
      let timestamp := row.getD 0 ""
      let comment := row.getD 1 ""
      if timestamp = "" then parseCSVRows rest
      else if comment = "" then parseCSVRows rest
      else { timestamp := timestamp, comment := comment } :: parseCSVRows rest

/-- Embedding of `parseCSVData` (source lines 310-340): filter rows, then
fail with `noValidMarkers` when nothing survives. -/
def parseCSVData (data : List (List String)) : Except ImportError (List MarkerRecord) :=
  let markers := parseCSVRows data
  if markers.isEmpty then Except.error ImportError.noValidMarkers
  else Except.ok markers

/-- ImportResult of the spec: the `{ inserted, skipped }` object returned
by `insertMarkers`. -/
structure ImportResult where
  inserted : Nat
  skipped : Nat
  deriving DecidableEq

/-- Embedding of the `insertMarkers` loop (source lines 374-397).  The
host call pair `sequence.markers.createMarker(time); markerObj.name =
comment` is the spec's MarkerSink capability `placeMarker(seconds,
label) -> success or failure`, modelled by a Boolean-valued `sink`; the
second component of the result is the ordered trace of sink invocations
(argument pairs), successful or not.  A record whose timestamp fails
`parseTimeString` is caught and skipped with no sink invocation; a
record the sink rejects is skipped after its invocation. -/
def insertMarkers (sink : ℚ → String → Bool) : List MarkerRecord → ImportResult × List (ℚ × String)
  | [] => (⟨0, 0⟩, [])
  | m :: rest =>
      match parseTimeString m.timestamp with
      | Except.error _ =>
          (⟨(insertMarkers sink rest).1.inserted, (insertMarkers sink rest).1.skipped + 1⟩,
           (insertMarkers sink rest).2)
      | Except.ok t =>
          if sink t m.comment then
            (⟨(insertMarkers sink rest).1.inserted + 1, (insertMarkers sink rest).1.skipped⟩,
             (t, m.comment) :: (insertMarkers sink rest).2)
          else
            (⟨(insertMarkers sink rest).1.inserted, (insertMarkers sink rest).1.skipped + 1⟩,
             (t, m.comment) :: (insertMarkers sink rest).2)

/-- Decoding of raw file text into the line sequence `file.readln`
produces (a trailing newline yields a final empty line, which the reader
skips anyway). -/
def splitLines (text : String) : List String := text.splitOn "\n"

/-- Embedding of the `main` orchestration (source lines 409-429), minus
UI concerns: readCSV, the empty-data check, parseCSVData, insertMarkers.
Returns the ImportResult together with the ordered sink-invocation
trace, or the fatal error. -/
def runPipeline (sink : ℚ → String → Bool) (lines : List String) :
    Except ImportError (ImportResult × List (ℚ × String)) :=
  match readCSV lines with
  | Except.error e => Except.error e
  | Except.ok data =>
      if data.length = 0 then Except.error ImportError.emptyData
      else
        match parseCSVData data with
        | Except.error e => Except.error e
        | Except.ok markers => Except.ok (insertMarkers sink markers)

/-- Sink that accepts every marker (host `createMarker` never throws). -/
def alwaysSink : ℚ → String → Bool := fun _ _ => true

/-- Stateful variant of the `insertMarkers` loop, used to express the
cross-run independence claim: the host is an explicit state `σ` threaded
through the sink, and the observable output (counts plus invocation
trace) is separated from the final host state. -/
def insertMarkersSt {σ : Type} (sink : σ → ℚ → String → Bool × σ) :
    List MarkerRecord → σ → (ImportResult × List (ℚ × String)) × σ
  | [], s => ((⟨0, 0⟩, []), s)
  | m :: rest, s =>
      match parseTimeString m.timestamp with
      | Except.error _ =>
          let r := insertMarkersSt sink rest s
          ((⟨r.1.1.inserted, r.1.1.skipped + 1⟩, r.1.2), r.2)
      | Except.ok t =>
          let step := sink s t m.comment
          let r := insertMarkersSt sink rest step.2
          (((if step.1 then ⟨r.1.1.inserted + 1, r.1.1.skipped⟩
             else ⟨r.1.1.inserted, r.1.1.skipped + 1⟩ : ImportResult),
            (t, m.comment) :: r.1.2), r.2)

/-- Stateful variant of `runPipeline` over an explicit host state. -/
def runPipelineSt {σ : Type} (sink : σ → ℚ → String → Bool × σ) (lines : List String)
    (s : σ) : Except ImportError (ImportResult × List (ℚ × String)) × σ :=
  match readCSV lines with
  | Except.error e => (Except.error e, s)
  | Except.ok data =>
      if data.length = 0 then (Except.error ImportError.emptyData, s)
      else
        match parseCSVData data with
        | Except.error e => (Except.error e, s)
        | Except.ok markers =>
            let r := insertMarkersSt sink markers s
            (Except.ok r.1, r.2)

/-- Host state that records placed markers and always succeeds: the
concrete always-successful sink used to witness the idempotence claim. -/
def recordSink (s : List (ℚ × String)) (t : ℚ) (c : String) : Bool × List (ℚ × String) :=
  (true, (t, c) :: s)

/-- Modelled from the spec: a valid decimal-number string after the
optional sign — digits with an optional fractional part (a trailing
bare dot allowed, as a standard floating parse accepts), or a
leading-dot fractional form. -/
def isUnsignedDecimal (cs : List Char) : Bool :=
  let ints := cs.takeWhile isDigit
  let rest := cs.dropWhile isDigit
  match rest with
  | [] => !ints.isEmpty
  | '.' :: fr => fr.all isDigit && (!ints.isEmpty || !fr.isEmpty)
  | _ => false

/-- Modelled from the spec: a valid decimal-number string — optionally
signed, optionally fractional, leading-dot forms allowed. -/
def isValidDecimalString (s : String) : Bool :=
  match s.data with
  | '-' :: rest => isUnsignedDecimal rest
  | '+' :: rest => isUnsignedDecimal rest
  | cs => isUnsignedDecimal cs

/-! ## Helper lemmas -/

theorem dropWhile_eq_self_of_none {α : Type} (p : α → Bool) (l : List α)
    (h : ∀ a ∈ l, p a = false) : l.dropWhile p = l := by
  cases l with
  | nil => rfl
  | cons a t => simp [List.dropWhile_cons, h a (List.mem_cons_self a t)]

theorem takeWhile_eq_self_of_all {α : Type} (p : α → Bool) (l : List α)
    (h : ∀ a ∈ l, p a = true) : l.takeWhile p = l := by
  induction l with
  | nil => rfl
  | cons a t ih =>
      simp [List.takeWhile_cons, h a (List.mem_cons_self a t),
            ih (fun x hx => h x (List.mem_cons_of_mem a hx))]

theorem dropWhile_eq_nil_of_all {α : Type} (p : α → Bool) (l : List α)
    (h : ∀ a ∈ l, p a = true) : l.dropWhile p = [] := by
  induction l with
  | nil => rfl
  | cons a t ih =>
      simp [List.dropWhile_cons, h a (List.mem_cons_self a t),
            ih (fun x hx => h x (List.mem_cons_of_mem a hx))]

theorem isDigit_isJsSpace_false (c : Char) (h : isDigit c = true) : isJsSpace c = false := by
  cases hs : isJsSpace c
  · rfl
  · exfalso
    simp only [isJsSpace, Bool.or_eq_true, decide_eq_true_eq] at hs
    rcases hs with ((((h1 | h1) | h1) | h1) | h1) | h1 <;> subst h1 <;>
      exact absurd h (by decide)

theorem trim_eq_self_of_no_space (s : String) (h : ∀ c ∈ s.data, isJsSpace c = false) :
    trim s = s := by
  unfold trim
  rw [dropWhile_eq_self_of_none _ _ h,
      dropWhile_eq_self_of_none _ _ (fun c hc => h c (List.mem_reverse.mp hc)),
      List.reverse_reverse]

theorem isUnsignedDecimal_chars (cs : List Char) (h : isUnsignedDecimal cs = true) :
    ∀ c ∈ cs, isDigit c = true ∨ c = '.' := by
  intro c hc
  rw [← List.takeWhile_append_dropWhile isDigit cs] at hc
  rcases List.mem_append.mp hc with h1 | h1
  · exact Or.inl (List.mem_takeWhile_imp h1)
  · simp only [isUnsignedDecimal] at h
    split at h
    next heq => rw [heq] at h1; cases h1
    next fr heq =>
        rw [heq] at h1
        rcases List.mem_cons.mp h1 with rfl | hm
        · exact Or.inr rfl
        · simp only [Bool.and_eq_true, List.all_eq_true] at h
          exact Or.inl (h.1 c hm)
    next => cases h

theorem validDecimalString_chars (s : String) (h : isValidDecimalString s = true) :
    ∀ c ∈ s.data, isJsSpace c = false := by
  intro c hc
  simp only [isValidDecimalString] at h
  split at h
  next rest heq =>
      rw [heq] at hc
      rcases List.mem_cons.mp hc with rfl | hm
      · decide
      · rcases isUnsignedDecimal_chars rest h c hm with hd | rfl
        · exact isDigit_isJsSpace_false c hd
        · decide
  next rest heq =>
      rw [heq] at hc
      rcases List.mem_cons.mp hc with rfl | hm
      · decide
      · rcases isUnsignedDecimal_chars rest h c hm with hd | rfl
        · exact isDigit_isJsSpace_false c hd
        · decide
  next =>
      rcases isUnsignedDecimal_chars s.data h c hc with hd | rfl
      · exact isDigit_isJsSpace_false c hd
      · decide

theorem readMantissa_of_unsignedDecimal (cs : List Char) (h : isUnsignedDecimal cs = true) :
    ∃ v : ℚ, readMantissa cs = some (v, []) := by
  simp only [isUnsignedDecimal] at h
  simp only [readMantissa]
  split at h
  next heq =>
      rw [heq]
      simp only [Bool.not_eq_true'] at h
      rw [if_neg (by simp [h])]
      exact ⟨_, rfl⟩
  next fr heq =>
      rw [heq]
      simp only [Bool.and_eq_true, List.all_eq_true] at h
      have htw : fr.takeWhile isDigit = fr := takeWhile_eq_self_of_all _ _ h.1
      have hdw : fr.dropWhile isDigit = [] := dropWhile_eq_nil_of_all _ _ h.1
      have h2 := h.2
      simp only [Bool.or_eq_true, Bool.not_eq_true'] at h2
      rcases h2 with h2 | h2 <;>
        · simp only [htw, hdw]
          rw [if_neg (by simp [h2])]
          exact ⟨_, rfl⟩
  next => cases h

theorem jsParseFloat_of_validDecimal (s : String) (h : isValidDecimalString s = true) :
    ∃ v : ℚ, jsParseFloat s = some v := by
  have hns : s.data.dropWhile isJsSpace = s.data :=
    dropWhile_eq_self_of_none _ _ (validDecimalString_chars s h)
  simp only [isValidDecimalString] at h
  simp only [jsParseFloat, hns]
  split at h
  next rest heq =>
      obtain ⟨v, hm⟩ := readMantissa_of_unsignedDecimal rest h
      exact ⟨_, by rw [hm]⟩
  next rest heq =>
      obtain ⟨v, hm⟩ := readMantissa_of_unsignedDecimal rest h
      exact ⟨_, by rw [hm]⟩
  next cs heq1 heq2 =>
      obtain ⟨v, hm⟩ := readMantissa_of_unsignedDecimal s.data h
      exact ⟨_, by rw [hm]⟩

/-! ## Claim theorems -/

/-- C1: the claim says `parseTimeString("01:02:03.5") = 3723.5` and
`parseTimeString("00:00:10") = 10` (hours times 3600 plus minutes times 60
plus seconds).  The code disagrees: JavaScript `parseFloat` accepts the
longest numeric PREFIX of the string, so `parseFloat("01:02:03.5") = 1`
is not `NaN` and `parseTimeString` returns it immediately — the HH:MM:SS
branch is never reached for any well-formed colon timestamp.  This
evaluation records what the code actually computes at the claim's own
inputs (1 and 0 instead of 3723.5 and 10). -/
theorem parseTimeString_colon_inputs_return_hours_field :
    parseTimeString "01:02:03.5" = Except.ok 1 ∧ parseTimeString "00:00:10" = Except.ok 0 := by
  constructor <;> with_unfolding_all rfl

/-- C2: the claim says `parseTimeString("1:2")` fails with
InvalidTimeFormat.  The code disagrees: `parseFloat("1:2") = 1` (numeric
prefix), which is not `NaN`, so the function returns 1 and never reaches
the colon-splitting validation.  This evaluation records the actual
(successful) result at the claim's input. -/
theorem parseTimeString_two_colon_parts_returns_prefix :
    parseTimeString "1:2" = Except.ok 1 := by
  with_unfolding_all rfl

/-- C3: for every valid decimal-number string (optionally signed,
optionally fractional, leading-dot forms allowed), `parseTimeString`
returns exactly the value `parseFloat` yields on it, without failing:
the decimal path takes priority over the colon-separated form. -/
theorem parseTimeString_eq_parseFloat_on_decimal (s : String)
    (h : isValidDecimalString s = true) :
    ∃ v : ℚ, jsParseFloat s = some v ∧ parseTimeString s = Except.ok v := by
  obtain ⟨v, hv⟩ := jsParseFloat_of_validDecimal s h
  refine ⟨v, hv, ?_⟩
  have htrim : trim s = s :=
    trim_eq_self_of_no_space s (validDecimalString_chars s h)
  simp only [parseTimeString, htrim, hv]

/-- Witness for C3 at the concrete valid decimal string "-2.5". -/
theorem parseTimeString_eq_parseFloat_on_decimal_witness :
    isValidDecimalString "-2.5" = true ∧
    ∃ v : ℚ, jsParseFloat "-2.5" = some v ∧ parseTimeString "-2.5" = Except.ok v :=
  ⟨by with_unfolding_all rfl,
   parseTimeString_eq_parseFloat_on_decimal "-2.5" (by with_unfolding_all rfl)⟩

/-- C10: whenever the (trimmed) input has a leading valid decimal prefix
(e.g. "1:30" or "10abc"), `parseTimeString` returns that prefix's
numeric value: it neither attempts the colon-separated parse nor
fails. -/
theorem parseTimeString_decimal_prefix_priority (s : String) (v : ℚ)
    (h : jsParseFloat (trim s) = some v) : parseTimeString s = Except.ok v := by
  simp only [parseTimeString, h]

/-- Witness for C10 at the claim's own example inputs "1:30" and
"10abc". -/
theorem parseTimeString_decimal_prefix_priority_witness :
    (jsParseFloat (trim "1:30") = some 1 ∧ parseTimeString "1:30" = Except.ok 1) ∧
    (jsParseFloat (trim "10abc") = some 10 ∧ parseTimeString "10abc" = Except.ok 10) :=
  ⟨⟨by with_unfolding_all rfl,
    parseTimeString_decimal_prefix_priority "1:30" 1 (by with_unfolding_all rfl)⟩,
   ⟨by with_unfolding_all rfl,
    parseTimeString_decimal_prefix_priority "10abc" 10 (by with_unfolding_all rfl)⟩⟩

/-- C4 counterexample: the claim says each field is FIRST trimmed and
THEN quote-stripped.  The code does the opposite (`trim(col.replace(...))`),
and the two orders differ observably: on the field consisting of a space,
a double quote, `5`, a double quote, the code leaves the leading quote in
place (the regex anchor `^` no longer sees it) and yields the two-character
string quote-5, while trim-then-strip yields `5`. -/
theorem cleanField_order_counterexample :
    cleanField " \"5\"" = "\"5" ∧
    stripQuotes (trim " \"5\"") = "5" ∧
    (cleanField " \"5\"" == stripQuotes (trim " \"5\"")) = false := by
  refine ⟨?_, ?_, ?_⟩ <;> with_unfolding_all rfl

/-- C4 (amended): for every field, CsvReader first strips one leading
quote character (single or double) if present and one trailing quote
character if present — independently, the two need not match — and then
trims whitespace.  In particular a field written as quote, inner text,
quote cleans to the trimmed inner text, and the claim's two examples
hold. -/
theorem cleanField_strip_then_trim (m : String) (q1 q2 : Char)
    (h1 : isQuote q1 = true) (h2 : isQuote q2 = true) :
    cleanField ⟨q1 :: (m.data ++ [q2])⟩ = trim m ∧
    cleanField "\"5\"" = "5" ∧ cleanField "\"Nice shot\"" = "Nice shot" := by
  refine ⟨?_, by with_unfolding_all rfl, by with_unfolding_all rfl⟩
  show trim (stripQuotes ⟨q1 :: (m.data ++ [q2])⟩) = trim m
  have hs : stripQuotes ⟨q1 :: (m.data ++ [q2])⟩ = ⟨m.data⟩ := by
    simp only [stripQuotes, h1, if_true]
    have hlast : (m.data ++ [q2]).getLast? = some q2 := List.getLast?_concat _
    simp only [dropTrailingQuote, hlast, h2, if_true, List.dropLast_concat]
  rw [hs]

/-- Witness for C4 (amended) at inner text " 5 " wrapped in a double and
a single quote (non-matching pair, also exercising the trim step). -/
theorem cleanField_strip_then_trim_witness :
    isQuote '"' = true ∧ isQuote '\'' = true ∧
    (cleanField ⟨'"' :: (" 5 ".data ++ ['\''])⟩ = trim " 5 " ∧
     cleanField "\"5\"" = "5" ∧ cleanField "\"Nice shot\"" = "Nice shot") :=
  ⟨rfl, rfl, cleanField_strip_then_trim " 5 " '"' '\'' rfl rfl⟩

/-- C5: end to end on the text "t,c\n10,Goal\n,Empty\n20,Save\n" with an
always-succeeding sink the pipeline inserts 2 markers and skips 0, and
the sink is invoked exactly twice, as (10, "Goal") then (20, "Save"), in
that order; the empty-timestamp row is dropped before the insertion
loop. -/
theorem runPipeline_end_to_end_example :
    runPipeline alwaysSink (splitLines "t,c\n10,Goal\n,Empty\n20,Save\n") =
      Except.ok (⟨2, 0⟩, [(10, "Goal"), (20, "Save")]) := by
  with_unfolding_all rfl

/-- C6: for every sink and every MarkerRecord list, the counts returned
by the insertion loop are nonnegative (they live in ℕ) and sum to the
number of records processed: every record is counted exactly once, as
inserted or as skipped. -/
theorem insertMarkers_counts_partition (sink : ℚ → String → Bool)
    (ms : List MarkerRecord) :
    (insertMarkers sink ms).1.inserted + (insertMarkers sink ms).1.skipped = ms.length := by
  induction ms with
  | nil => rfl
  | cons m rest ih =>
      cases hp : parseTimeString m.timestamp with
      | error e =>
          simp only [insertMarkers, hp, List.length_cons]
          omega
      | ok t =>
          cases hs : sink t m.comment <;>
            · simp only [insertMarkers, hp, hs, List.length_cons, Bool.false_eq_true, if_false,
                if_true]
              omega

/-- C7: in the insertion loop a record whose timestamp fails to parse is
recorded as one extra skip with NO sink invocation (the trace is exactly
the remaining records' trace), and a record the sink rejects is recorded
as one extra skip after its invocation; in both cases the remaining
records are still processed — the loop's result is the rest's result
with the skip count bumped. -/
theorem insertMarkers_per_row_failure (sink : ℚ → String → Bool) (m : MarkerRecord)
    (rest : List MarkerRecord) :
    (∀ e, parseTimeString m.timestamp = Except.error e →
        insertMarkers sink (m :: rest) =
          (⟨(insertMarkers sink rest).1.inserted, (insertMarkers sink rest).1.skipped + 1⟩,
           (insertMarkers sink rest).2)) ∧
    (∀ t, parseTimeString m.timestamp = Except.ok t → sink t m.comment = false →
        insertMarkers sink (m :: rest) =
          (⟨(insertMarkers sink rest).1.inserted, (insertMarkers sink rest).1.skipped + 1⟩,
           (t, m.comment) :: (insertMarkers sink rest).2)) := by
  constructor
  · intro e he
    simp only [insertMarkers, he]
  · intro t ht hs
    simp only [insertMarkers, ht, hs, Bool.false_eq_true, if_false]

/-- Witness for C7: the unparseable row ("abc", "Comment") is skipped with
no sink call, and the following row ("10", "Goal") is still inserted. -/
theorem insertMarkers_per_row_failure_witness :
    insertMarkers alwaysSink [⟨"abc", "Comment"⟩, ⟨"10", "Goal"⟩] =
      (⟨1, 1⟩, [(10, "Goal")]) := by
  have h := (insertMarkers_per_row_failure alwaysSink ⟨"abc", "Comment"⟩ [⟨"10", "Goal"⟩]).1
      (ImportError.invalidTimeFormat "abc") (by with_unfolding_all rfl)
  rw [h]
  with_unfolding_all rfl

/-- C8 counterexample: the claim says a header-only CSV fails with
NoValidMarkers.  The code fails fatally on this input, but with the
empty-data error from the data-length check in `main` ("CSV file is
empty or contains no valid data."), which fires before `parseCSVData`
can raise "No valid markers found": the two errors are distinct. -/
theorem runPipeline_header_only_counterexample :
    runPipeline alwaysSink (splitLines "t,c\n") = Except.error ImportError.emptyData ∧
    (ImportError.emptyData == ImportError.noValidMarkers) = false := by
  exact ⟨by with_unfolding_all rfl, by with_unfolding_all rfl⟩

/-- C8 (amended): a CSV with only a header row aborts the run fatally
before any sink invocation, but with the empty-data error raised by the
pipeline's data-length check, not NoValidMarkers; NoValidMarkers is
raised when data rows exist but none survives row validation (here: a
lone row with an empty timestamp). -/
theorem runPipeline_header_only_fatal :
    runPipeline alwaysSink (splitLines "t,c\n") = Except.error ImportError.emptyData ∧
    runPipeline alwaysSink (splitLines "t,c\n,x\n") =
      Except.error ImportError.noValidMarkers := by
  exact ⟨by with_unfolding_all rfl, by with_unfolding_all rfl⟩

/-- Observable output of the stateful insertion loop does not depend on
the incoming host state when the sink accepts every marker. -/
theorem insertMarkersSt_state_indep {σ : Type} (sink : σ → ℚ → String → Bool × σ)
    (hsink : ∀ s t c, (sink s t c).1 = true) (ms : List MarkerRecord) :
    ∀ s1 s2 : σ, (insertMarkersSt sink ms s1).1 = (insertMarkersSt sink ms s2).1 := by
  induction ms with
  | nil => intro s1 s2; rfl
  | cons m rest ih =>
      intro s1 s2
      cases hp : parseTimeString m.timestamp with
      | error e =>
          simp only [insertMarkersSt, hp]
          rw [ih s1 s2]
      | ok t =>
          simp only [insertMarkersSt, hp, hsink]
          rw [ih (sink s1 t m.comment).2 (sink s2 t m.comment).2]

/-- C9: with a sink that always succeeds, the observable outcome of a
pipeline run — the ImportResult and the ordered sequence of sink
invocation arguments — is the same from any two starting host states; in
particular, running the pipeline twice on the same file (the second run
starting in whatever state the first run left) yields identical counts
and identical ordered placeMarker argument sequences. -/
theorem runPipelineSt_state_indep {σ : Type} (sink : σ → ℚ → String → Bool × σ)
    (hsink : ∀ s t c, (sink s t c).1 = true) (lines : List String) (s1 s2 : σ) :
    (runPipelineSt sink lines s1).1 = (runPipelineSt sink lines s2).1 := by
  simp only [runPipelineSt]
  cases readCSV lines with
  | error e => rfl
  | ok data =>
      simp only []
      by_cases hlen : data.length = 0
      · simp [hlen]
      · simp only [hlen, if_false]
        cases parseCSVData data with
        | error e => rfl
        | ok markers =>
            simp only []
            rw [insertMarkersSt_state_indep sink hsink markers s1 s2]

/-- Witness for C9: a second run started in the state the first run left
behind produces the same observable outcome as the first run. -/
theorem runPipelineSt_state_indep_witness :
    (runPipelineSt recordSink (splitLines "t,c\n10,Goal\n") []).1 =
    (runPipelineSt recordSink (splitLines "t,c\n10,Goal\n")
        (runPipelineSt recordSink (splitLines "t,c\n10,Goal\n") []).2).1 :=
  runPipelineSt_state_indep recordSink (fun _ _ _ => rfl) (splitLines "t,c\n10,Goal\n") _ _
